/-
Verification of the make_gtfs synthesis pipeline (make_gtfs/main.py).

The pipeline's pure computational core is shallowly embedded here:

* Python strings are `List Char` (`Str`); `str.join` / `str.split` on the
  one-character separator are `joinChar` / `splitOnChar`; `str(n)` for a
  natural number is `natToStr`.
* Python ints are `Nat`/`Int`; Python floats (durations, distances in km,
  seconds past midnight, speeds) are modelled exactly as `ℚ`; `int(x)`
  truncation toward zero is `pyInt`.
* pandas DataFrames are lists of per-row structures; a pandas groupby /
  merge is pre-applied where the source only iterates over the joined rows.
* External geometry collaborators (shapely / gtfstk) enter through their
  measured outputs: a linestring is its coordinate list together with its
  planar length in meters, and the along-shape distance of a stop
  (gt.get_segment_length) is data attached to the stop.
* Fallible Python code (unpacking errors, ZeroDivisionError, failed parses)
  returns `Option`, `none` marking the raised exception.
-/
import Mathlib

set_option allowUnsafeReducibility true
-- Batteries marks rational arithmetic `@[irreducible]`, which blocks kernel
-- evaluation of concrete witnesses; restore the default reducibility.
attribute [semireducible] Rat.mul Rat.inv Rat.add Rat.sub Rat.neg

namespace MakeGtfs

/-- A Python string, represented by its character list. -/
abbrev Str := List Char

/-- Modelled from the spec: the reserved separator `cs.SEP` from the missing
`constants` module.  The spec tags bidirectional shapes `-0`/`-1`, and
`build_shapes` hardcodes the suffixes `'-1'`/`'-0'` that `build_trips`
must reproduce via `cs.SEP`, which pins the separator to `'-'`. -/
def SEP : Char := '-'

/-- Python `sep.join(parts)` for a one-character separator. -/
def joinChar (sep : Char) : List Str → Str
  | [] => []
  | [s] => s
  | s :: rest => s ++ sep :: joinChar sep rest

/-- Python `s.split(sep)` for a one-character separator. -/
def splitOnChar (sep : Char) : Str → List Str
  | [] => [[]]
  | c :: rest =>
    if c = sep then [] :: splitOnChar sep rest
    else
      match splitOnChar sep rest with
      | s :: tl => (c :: s) :: tl
      | [] => [[c]]

/-- The decimal digit character for `n % 10`-style values, as produced by
Python `str` on a natural number. -/
def digitChar : ℕ → Char
  | 0 => '0'
  | 1 => '1'
  | 2 => '2'
  | 3 => '3'
  | 4 => '4'
  | 5 => '5'
  | 6 => '6'
  | 7 => '7'
  | 8 => '8'
  | _ => '9'

/-- Decimal printing worker: `fuel` bounds the recursion depth so that the
definition is structural (`n + 1` units always suffice). -/
def natToStrAux (fuel : ℕ) (n : ℕ) : Str :=
  match fuel with
  | 0 => []
  | fuel + 1 =>
    if n < 10 then [digitChar n]
    else natToStrAux fuel (n / 10) ++ [digitChar (n % 10)]

/-- Python `str(n)` for a natural number `n`. -/
def natToStr (n : ℕ) : Str := natToStrAux (n + 1) n

/-- Python `int(s)` on a plain digit string (the only form the pipeline
produces); `none` models the `ValueError` on anything else. -/
def digitVal (c : Char) : Option ℕ :=
  if c = '0' then some 0
  else if c = '1' then some 1
  else if c = '2' then some 2
  else if c = '3' then some 3
  else if c = '4' then some 4
  else if c = '5' then some 5
  else if c = '6' then some 6
  else if c = '7' then some 7
  else if c = '8' then some 8
  else if c = '9' then some 9
  else none

/-- Python `int(s)` for the digit strings the pipeline constructs. -/
def strToNatD (s : Str) : Option ℕ :=
  if s.isEmpty then none
  else s.foldl (fun acc c => acc.bind (fun a => (digitVal c).map (fun d => a * 10 + d))) (some 0)

/-- `gtfstk.timestr_to_seconds` on an HH:MM:SS string: seconds past
midnight, `none` on a malformed string. -/
def timestr_to_seconds (s : Str) : Option ℕ :=
  match splitOnChar ':' s with
  | [h, m, sec] =>
    match strToNatD h, strToNatD m, strToNatD sec with
    | some a, some b, some c => some (a * 3600 + b * 60 + c)
    | _, _, _ => none
  | _ => none

/-- Python `int(x)` on a float: truncation toward zero, modelled on `ℚ`. -/
def pyInt (q : ℚ) : ℤ := if q < 0 then ⌈q⌉ else ⌊q⌋

/-- `get_duration(timestr1, timestr2, units='h')` (main.py 209-229), applied
to the parsed second counts of the two time strings:
`(timestr_to_seconds t2 - timestr_to_seconds t1) / 3600` hours. -/
def get_duration_h (s1 s2 : ℕ) : ℚ := ((s2 : ℚ) - (s1 : ℚ)) / 3600

/-- `build_stop_ids` (main.py 231-235):
`[cs.SEP.join(['stp', shape_id, str(i)]) for i in range(2)]`. -/
def build_stop_ids (shape_id : Str) : List Str :=
  (List.range 2).map (fun i => joinChar SEP ["stp".toList, shape_id, natToStr i])

/-- `build_stop_names` (main.py 237-242):
`'Stop {!s} on shape {!s} '.format(i, shape_id)` for `i in range(2)`. -/
def build_stop_names (shape_id : Str) : List Str :=
  (List.range 2).map
    (fun i => "Stop ".toList ++ natToStr i ++ " on shape ".toList ++ shape_id ++ " ".toList)

/-- One row of `service_windows.csv`: the window identifier and the seven
day-activation integers `monday..sunday` (plus the parsed start/end
times where the Trip Expander needs them). -/
structure SWindow where
  service_window_id : Str
  flags : List ℕ
deriving DecidableEq

/-- One row of the derived `calendar.txt` table. -/
structure CalRow where
  service_id : Str
  flags : List ℕ
  start_date : Str
  end_date : Str
deriving DecidableEq

/-- `get_sid` inside `build_calendar_etc` (main.py 264-265):
`'srv' + ''.join([str(b) for b in bitlist])`. -/
def get_sid (bitlist : List ℕ) : Str :=
  "srv".toList ++ (bitlist.map natToStr).flatten

/-- The dictionary `d` built by the loop in `build_calendar_etc`
(main.py 272-277): each window assigns `d[window_id] = get_sid(bitlist)`,
later assignments overwriting earlier ones. -/
def service_by_window (windows : List SWindow) : Str → Option Str :=
  windows.foldl
    (fun f w => fun x => if x = w.service_window_id then some (get_sid w.flags) else f x)
    (fun _ => none)

/-- The set `bitlists` of distinct day-activation tuples
(main.py 269, 276), as the insertion-ordered list of first occurrences. -/
def bitlists (windows : List SWindow) : List (List ℕ) :=
  windows.foldl (fun acc w => if w.flags ∈ acc then acc else acc ++ [w.flags]) []

/-- `build_calendar_etc` (main.py 254-289): one calendar row per distinct
flag tuple, plus the window-to-service dictionary. -/
def build_calendar_etc (windows : List SWindow) (start_date end_date : Str) :
    List CalRow × (Str → Option Str) :=
  ((bitlists windows).map
    (fun bl => { service_id := get_sid bl, flags := bl
                 start_date := start_date, end_date := end_date }),
   service_by_window windows)

/-- Route-ID creation in `build_routes` (main.py 299):
`'r' + route_short_name`. -/
def build_route_id (route_short_name : Str) : Str := 'r' :: route_short_name

/-- The columns of a `frequencies.csv` row consumed by
`ProtoFeed.__init__`'s shapes-extra aggregation (main.py 56-72). -/
structure FreqRow where
  shape_id : Str
  direction : ℕ
deriving DecidableEq

/-- `my_agg` (main.py 57-64) applied to the direction column of one
`groupby('shape_id')` group: `dirs = group.direction.unique()`;
direction 2 if several distinct directions or 2 occurs, else `dirs[0]`. -/
def my_agg_direction (dirs : List ℕ) : ℕ :=
  if 1 < dirs.dedup.length ∨ 2 ∈ dirs then 2 else dirs.headD 0

/-- `pfeed.shapes_extra` (main.py 66-72): the direction aggregate for each
shape ID occurring in `frequencies`, `none` for shape IDs with no
frequency row. -/
def shapes_extra (freqs : List FreqRow) (s : Str) : Option ℕ :=
  let dirs := (freqs.filter (fun r => decide (r.shape_id = s))).map FreqRow.direction
  if dirs.isEmpty then none else some (my_agg_direction dirs)

/-- A planar or longitude-latitude coordinate pair. -/
abbrev Point := ℚ × ℚ

/-- One row of the built `shapes.txt` table. -/
structure ShapeRow where
  shape_id : Str
  shape_pt_sequence : ℕ
  shape_pt_lon : ℚ
  shape_pt_lat : ℚ
deriving DecidableEq

/-- The row block `[[shid, i, lon, lat] for i, (lon, lat) in
enumerate(coords)]` of `build_shapes` (main.py 348-349, 352-353, 358-359). -/
def mk_shape_rows (shid : Str) (coords : List Point) : List ShapeRow :=
  coords.enum.map (fun p =>
    { shape_id := shid, shape_pt_sequence := p.1
      shape_pt_lon := p.2.1, shape_pt_lat := p.2.2 })

/-- The point sequence of a block of shape rows, in row order. -/
def shape_points (rows : List ShapeRow) : List Point :=
  rows.map (fun r => (r.shape_pt_lon, r.shape_pt_lat))

/-- The body of the loop of `build_shapes` (main.py 342-360) for one entry
of `geometry_by_shape`: skip unreferenced shapes, emit the verbatim shape
tagged `-1` plus the reversed shape tagged `-0` when the aggregated
direction is 2, else one shape tagged with the single direction. -/
def build_shapes_for_path (freqs : List FreqRow) (s : Str) (coords : List Point) :
    List ShapeRow :=
  match shapes_extra freqs s with
  | none => []
  | some d =>
    if d = 2 then
      mk_shape_rows (s ++ "-1".toList) coords ++
        mk_shape_rows (s ++ "-0".toList) coords.reverse
    else
      mk_shape_rows (s ++ SEP :: natToStr d) coords

/-- `build_shapes` (main.py 332-363) over the geometry registry
(shape ID, linestring coordinates). -/
def build_shapes (geometry_by_shape : List (Str × List Point)) (freqs : List FreqRow) :
    List ShapeRow :=
  geometry_by_shape.flatMap (fun g => build_shapes_for_path freqs g.1 g.2)

/-- One row of the built `stops.txt` table. -/
structure StopRow where
  stop_id : Str
  stop_name : Str
  stop_lon : ℚ
  stop_lat : ℚ
deriving DecidableEq

/-- `linestring.interpolate(i, normalized=True)` at the two endpoints
`i in range(2)` used by `build_stops` (main.py 390-391): normalized
position 0 is the linestring's first vertex and normalized position 1 its
last vertex (the only two arguments the source uses). -/
def interpolate_normalized (coords : List Point) (i : ℕ) : Point :=
  if i = 0 then coords.headD (0, 0) else coords.getLastD (0, 0)

/-- The body of the synthetic-stop loop of `build_stops` (main.py 383-392)
for one geometrized shape. -/
def build_stops_for_shape (shape : Str) (coords : List Point) : List StopRow :=
  (List.range 2).map (fun i =>
    let p := interpolate_normalized coords i
    { stop_id := (build_stop_ids shape).getD i []
      stop_name := (build_stop_names shape).getD i []
      stop_lon := p.1, stop_lat := p.2 })

/-- `build_stops` (main.py 365-397): pass an explicit registry through, or
synthesize two endpoint stops per geometrized shape. -/
def build_stops (pfeed_stops : Option (List StopRow))
    (geo_shapes : List (Str × List Point)) : List StopRow :=
  match pfeed_stops with
  | some stops => stops
  | none => geo_shapes.flatMap (fun g => build_stops_for_shape g.1 g.2)

/-- One row of the merged routes-frequencies-service-windows table that
`build_trips` iterates over (main.py 407-415): `start_sec`/`end_sec` are
the `gtfstk.timestr_to_seconds` parses of the window's time strings. -/
structure TripSpecRow where
  shape_id : Str
  route_id : Str
  service_window_id : Str
  start_timestr : Str
  start_sec : ℕ
  end_sec : ℕ
  frequency : ℕ
  direction : ℕ
deriving DecidableEq

/-- One row of the built `trips.txt` table. -/
structure Trip where
  route_id : Str
  trip_id : Str
  direction_id : ℕ
  shape_id : Str
  service_id : Str
deriving DecidableEq

/-- The body of the loop of `build_trips` (main.py 415-445) for one merged
row: zero trips for zero frequency, else
`int(frequency * duration)` trips for each required direction, each trip
identified by `cs.SEP.join(['t', route, window, start, str(direction),
str(i)])`. -/
def trips_for_row (r : TripSpecRow) (sbw : Str → Str) : List Trip :=
  if r.frequency = 0 then []
  else
    let duration := get_duration_h r.start_sec r.end_sec
    let num_trips_per_direction := (pyInt ((r.frequency : ℚ) * duration)).toNat
    let service := sbw r.service_window_id
    let directions := if r.direction = 2 then [0, 1] else [r.direction]
    directions.flatMap (fun direction =>
      let shid := r.shape_id ++ SEP :: natToStr direction
      (List.range num_trips_per_direction).map (fun i =>
        { route_id := r.route_id
          trip_id := joinChar SEP
            ["t".toList, r.route_id, r.service_window_id, r.start_timestr,
             natToStr direction, natToStr i]
          direction_id := direction
          shape_id := shid
          service_id := service }))

/-- `build_trips` (main.py 399-448) over the merged rows and the
window-to-service mapping. -/
def build_trips (rows : List TripSpecRow) (sbw : Str → Str) : List Trip :=
  rows.flatMap (fun r => trips_for_row r sbw)

/-- Python tuple comparison used by `sorted(dists_and_stops)`
(main.py 530): lexicographic on the `(distance, stop ID)` pair, with
strings ordered lexicographically by code point. -/
def pairLe (x y : ℚ × Str) : Prop := x.1 < y.1 ∨ (x.1 = y.1 ∧ x.2 ≤ y.2)

instance pairLe.instDecidableRel : DecidableRel pairLe :=
  fun x y => by unfold pairLe; infer_instance

instance pairLe.instIsTotal : IsTotal (ℚ × Str) pairLe where
  total a b := by
    rcases lt_trichotomy a.1 b.1 with h | h | h
    · exact Or.inl (Or.inl h)
    · rcases le_total a.2 b.2 with h2 | h2
      · exact Or.inl (Or.inr ⟨h, h2⟩)
      · exact Or.inr (Or.inr ⟨h.symm, h2⟩)
    · exact Or.inr (Or.inl h)

instance pairLe.instIsTrans : IsTrans (ℚ × Str) pairLe where
  trans a b c h1 h2 := by
    rcases h1 with h1 | ⟨h1, h1b⟩ <;> rcases h2 with h2 | ⟨h2, h2b⟩
    · exact Or.inl (h1.trans h2)
    · exact Or.inl (h2 ▸ h1)
    · exact Or.inl (h1 ▸ h2)
    · exact Or.inr ⟨h1.trans h2, h1b.trans h2b⟩

/-- `np.interp(x, [d0, d1], [t0, t1])` (main.py 544) for an ascending
node pair `d0 ≤ d1`: clamped outside the interval, linear inside. -/
def np_interp (x d0 d1 t0 t1 : ℚ) : ℚ :=
  if x ≤ d0 then t0
  else if d1 ≤ x then t1
  else t0 + (x - d0) * (t1 - t0) / (d1 - d0)

/-- `compute_stops_dists_times` (main.py 506-545).  `geo_stops` pairs each
nearby stop ID with its memoized along-shape distance in meters
(`gt.get_segment_length`, an external geometry collaborator); `lenM` is
`linestring.length` in meters.  `none` models the exceptions the source
raises: the `ValueError` from `zip(*sorted([]))` on an empty stop set and
the `ZeroDivisionError` from `D/(n - 1)` when the fallback fires with a
single stop. -/
def compute_stops_dists_times (geo_stops : List (Str × ℚ)) (lenM : ℚ)
    (start_time end_time : ℚ) : Option (List Str × List ℚ × List ℚ) :=
  let dists_and_stops := geo_stops.map (fun p => (p.2 / 1000, p.1))
  let sorted := List.insertionSort pairLe dists_and_stops
  if sorted.isEmpty then none
  else
    let dists := sorted.map Prod.fst
    let stops := sorted.map Prod.snd
    let D := lenM / 1000
    let dists_are_reasonable := dists.all (fun d => decide (d < D + 100))
    if dists_are_reasonable then
      let d0 := dists.headD 0
      let d1 := dists.getLastD 0
      some (stops, dists, dists.map (fun x => np_interp x d0 d1 start_time end_time))
    else
      let n := stops.length
      if n = 1 then none
      else
        let delta := D / ((n : ℚ) - 1)
        let dists2 := (List.range n).map (fun i : ℕ => (i : ℚ) * delta)
        let d0 := dists2.headD 0
        let d1 := dists2.getLastD 0
        some (stops, dists2, dists2.map (fun x => np_interp x d0 d1 start_time end_time))

/-- One row of the built `stop_times.txt` table, with times kept in
seconds past midnight (the source converts them back to strings only as a
final formatting step, main.py 611-614). -/
structure STRow where
  trip_id : Str
  stop_id : Str
  stop_sequence : ℕ
  arrival_time : ℚ
  departure_time : ℚ
  shape_dist_traveled : ℚ
deriving DecidableEq

/-- `[[trip, stop, j, time, time, dist] for j, (stop, time, dist) in
enumerate(zip(stops, times, dists))]` (main.py 604-605). -/
def make_stop_time_rows (trip : Str) (stops : List Str) (times dists : List ℚ) :
    List STRow :=
  ((stops.zip (times.zip dists)).enum).map (fun e =>
    { trip_id := trip, stop_id := e.2.1, stop_sequence := e.1
      arrival_time := e.2.2.1, departure_time := e.2.2.1
      shape_dist_traveled := e.2.2.2 })

/-- The body of the synthetic-stop loop of `build_stop_times`
(main.py 553-577) for one trip row: two stop-time rows per trip with
nonzero frequency, `none` modelling the exceptions a malformed trip ID
would raise when re-parsed. -/
def trip_rows_synthetic (trip shape : Str) (lenM speed : ℚ) (frequency : ℕ) :
    Option (List STRow) :=
  let length := lenM / 1000
  let duration := pyInt (length / speed * 3600)
  if frequency = 0 then some []
  else
    let headway : ℚ := 3600 / (frequency : ℚ)
    match splitOnChar SEP trip with
    | [_t, _route, _window, base_timestr, direction, i] =>
      match timestr_to_seconds base_timestr, strToNatD direction, strToNatD i with
      | some base_time, some _direction, some iv =>
        let start_time : ℚ := (base_time : ℚ) + headway * (iv : ℚ)
        let end_time : ℚ := start_time + (duration : ℚ)
        let stop_ids := build_stop_ids shape
        some
          [{ trip_id := trip, stop_id := stop_ids.getD 0 [], stop_sequence := 0
             arrival_time := start_time, departure_time := start_time
             shape_dist_traveled := 0 },
           { trip_id := trip, stop_id := stop_ids.getD 1 [], stop_sequence := 1
             arrival_time := end_time, departure_time := end_time
             shape_dist_traveled := length }]
      | _, _, _ => none
    | _ => none

/-- One trip of the explicit-stop loop of `build_stop_times`
(main.py 583-606), carrying the data the loop reads for it:
`nearby_stops` is the `get_nearby_stops` result with each stop's measured
along-shape distance in meters, `lenM` the shape's planar length in
meters. -/
structure TripCtx where
  trip_id : Str
  nearby_stops : List (Str × ℚ)
  lenM : ℚ
  speed : ℚ
  frequency : ℕ
deriving DecidableEq

/-- The body of the explicit-stop loop of `build_stop_times`
(main.py 583-606) for one trip. -/
def trip_rows_explicit (t : TripCtx) : Option (List STRow) :=
  let length := t.lenM / 1000
  let duration := pyInt (length / t.speed * 3600)
  if t.frequency = 0 then some []
  else
    let headway : ℚ := 3600 / (t.frequency : ℚ)
    match splitOnChar SEP t.trip_id with
    | [_t, _route, _window, base_timestr, direction, i] =>
      match timestr_to_seconds base_timestr, strToNatD direction, strToNatD i with
      | some base_time, some _direction, some iv =>
        let start_time : ℚ := (base_time : ℚ) + headway * (iv : ℚ)
        let end_time : ℚ := start_time + (duration : ℚ)
        (compute_stops_dists_times t.nearby_stops t.lenM start_time end_time).map
          (fun r => make_stop_time_rows t.trip_id r.1 r.2.2 r.2.1)
      | _, _, _ => none
    | _ => none

/-- The explicit-stop branch of `build_stop_times` (main.py 578-606):
rows accumulate across the trips in order; an exception raised for any
trip aborts the whole build (`none`). -/
def build_stop_times_explicit : List TripCtx → Option (List STRow)
  | [] => some []
  | t :: rest =>
    match trip_rows_explicit t with
    | none => none
    | some rs => (build_stop_times_explicit rest).map (fun more => rs ++ more)

/-- The stop-pruning step of `build_feed` (main.py 629):
`stops[stops.stop_id.isin(stop_times.stop_id)]`. -/
def build_feed_stops (stops : List StopRow) (stop_times : List STRow) : List StopRow :=
  stops.filter (fun r => decide (r.stop_id ∈ stop_times.map STRow.stop_id))

/-- The columns of a `frequencies.csv` row touched by the cleaning in
`ProtoFeed.__init__` (main.py 38-53); `none` is a missing (NaN) value. -/
structure PFreqRow where
  route_type : Option ℤ
  speed : Option ℚ
deriving DecidableEq

/-- The frequencies DataFrame object: its rows plus whether a `speed`
column is present at all. -/
structure FreqTable where
  has_speed_col : Bool
  rows : List PFreqRow
deriving DecidableEq

/-- The net effect of the cleaning in `ProtoFeed.__init__` (main.py
38-53) on the frequencies table: missing route types become 3 (bus), a
`speed` column is created if absent, and missing speeds are filled with
`meta['default_route_speed']`. -/
def clean_frequencies (default_route_speed : ℚ) (t : FreqTable) : FreqTable :=
  { has_speed_col := true
    rows := t.rows.map (fun r =>
      { route_type := some (r.route_type.getD 3)
        speed := some ((if t.has_speed_col then r.speed else none).getD default_route_speed) }) }

/-- The part of a `ProtoFeed` object relevant to the constructor's
mutation behaviour: which heap object its `frequencies` attribute refers
to. -/
structure ProtoFeedM where
  frequencies_ref : ℕ
deriving DecidableEq

/-- The default table used to total-ize heap lookups. -/
def emptyFreqTable : FreqTable := { has_speed_col := false, rows := [] }

/-- `ProtoFeed.__init__` (main.py 29-53) with a non-None frequencies
argument, over an explicit heap of DataFrame objects: `fillna(...,
inplace=True)` and the `freq['speed'] = np.nan` column assignment mutate
the caller's object in the store, and the constructed ProtoFeed keeps a
reference to that same object. -/
def protofeed_init (store : List FreqTable) (freq_ref : ℕ) (default_route_speed : ℚ) :
    List FreqTable × ProtoFeedM :=
  (store.set freq_ref
     (clean_frequencies default_route_speed (store.getD freq_ref emptyFreqTable)),
   { frequencies_ref := freq_ref })

/-! Concrete inputs used by witnesses and counterexamples. -/

/-- A merged frequency row: 4 trips/hour over the 2.5-hour window
06:00:00-08:30:00, direction 2. -/
def wRow : TripSpecRow :=
  ⟨"s1".toList, "rA".toList, "w1".toList, "06:00:00".toList, 21600, 30600, 4, 2⟩

/-- A window-to-service mapping for witnesses. -/
def wSbw : Str → Str := fun _ => "srv1111100".toList

/-- A merged frequency row whose route short name `51-X` contains the
reserved separator. -/
def cexTripRow : TripSpecRow :=
  ⟨"s1".toList, "r51-X".toList, "w1".toList, "06:00:00".toList, 21600, 25200, 1, 0⟩

/-- A weekday service window. -/
def wWinA : SWindow := ⟨"a".toList, [1, 1, 1, 1, 1, 0, 0]⟩

/-- A second window with the same weekday flags but a different ID. -/
def wWinB : SWindow := ⟨"b".toList, [1, 1, 1, 1, 1, 0, 0]⟩

/-- A weekend service window. -/
def wWinC : SWindow := ⟨"c".toList, [0, 0, 0, 0, 0, 1, 1]⟩

/-- The witness window collection. -/
def wWindows : List SWindow := [wWinA, wWinB, wWinC]

/-- A built shape identifier for the synthetic-stop witnesses. -/
def wShapeId : Str := "s1-0".toList

/-- A two-vertex linestring for the synthetic-stop witnesses. -/
def wCoords : List Point := [(0, 0), (1, 1)]

/-- A one-shape geometry registry for the synthetic-stop witnesses. -/
def wGeo : List (Str × List Point) := [(wShapeId, wCoords)]

/-- A well-formed constructed trip identifier (route `rA`, window `w1`,
base time 06:00:00, direction 0, index 2). -/
def wTripId : Str := "t-rA-w1-06:00:00-0-2".toList

/-- An explicitly supplied stop used by the Feed Assembler counterexample. -/
def cexStop : StopRow := ⟨"far".toList, "Far stop".toList, 0, 0⟩

/-- A one-table heap for the ProtoFeed constructor witness: the table has
no `speed` column and its first row lacks a route type. -/
def wStore : List FreqTable := [⟨false, [⟨none, none⟩, ⟨some 2, some 5⟩]⟩]

/-- An explicit-mode trip whose shape buffer contains two stops. -/
def okTrip : TripCtx :=
  ⟨"t-rA-w1-06:00:00-0-0".toList, [("a".toList, 100), ("b".toList, 900)], 2000, 10, 4⟩

/-- An explicit-mode trip whose shape buffer contains no stops. -/
def emptyBufferTrip : TripCtx := ⟨"t-rA-w1-06:00:00-1-0".toList, [], 2000, 10, 4⟩

/-! ### Helper lemmas -/

theorem digitChar_ne_sep (n : ℕ) : digitChar n ≠ SEP := by
  rcases n with _ | _ | _ | _ | _ | _ | _ | _ | _ | n
  all_goals first
    | decide
    | (show ('9' : Char) ≠ SEP; decide)

theorem sep_not_mem_natToStrAux (fuel n : ℕ) : SEP ∉ natToStrAux fuel n := by
  induction fuel generalizing n with
  | zero => simp [natToStrAux]
  | succ fuel ih =>
    unfold natToStrAux
    split
    · intro h
      exact digitChar_ne_sep n (List.mem_singleton.mp h).symm
    · intro h
      rcases List.mem_append.mp h with h | h
      · exact ih (n / 10) h
      · exact digitChar_ne_sep (n % 10) (List.mem_singleton.mp h).symm

theorem sep_not_mem_natToStr (n : ℕ) : SEP ∉ natToStr n :=
  sep_not_mem_natToStrAux (n + 1) n

theorem splitOnChar_of_not_mem (sep : Char) (s : Str) (h : sep ∉ s) :
    splitOnChar sep s = [s] := by
  induction s with
  | nil => rfl
  | cons c rest ih =>
    unfold splitOnChar
    have hc : ¬ c = sep := fun hcs => h (hcs ▸ List.mem_cons_self c rest)
    rw [if_neg hc, ih (fun hm => h (List.mem_cons_of_mem c hm))]

theorem splitOnChar_append_sep (sep : Char) (s t : Str) (h : sep ∉ s) :
    splitOnChar sep (s ++ sep :: t) = s :: splitOnChar sep t := by
  induction s with
  | nil => simp [splitOnChar]
  | cons c rest ih =>
    have hc : ¬ c = sep := fun hcs => h (hcs ▸ List.mem_cons_self c rest)
    have ihr := ih (fun hm => h (List.mem_cons_of_mem c hm))
    rw [List.cons_append, splitOnChar, if_neg hc, ihr]

theorem splitOnChar_joinChar (sep : Char) (l : List Str) (hne : l ≠ [])
    (h : ∀ s ∈ l, sep ∉ s) :
    splitOnChar sep (joinChar sep l) = l := by
  induction l with
  | nil => exact absurd rfl hne
  | cons s rest ih =>
    cases rest with
    | nil =>
      simp only [joinChar]
      exact splitOnChar_of_not_mem sep s (h s (List.mem_cons_self s []))
    | cons t rest2 =>
      have hs : sep ∉ s := h s (List.mem_cons_self s (t :: rest2))
      have hrec := ih (by simp) (fun x hx => h x (List.mem_cons_of_mem s hx))
      show splitOnChar sep (s ++ sep :: joinChar sep (t :: rest2)) = s :: t :: rest2
      rw [splitOnChar_append_sep sep s _ hs, hrec]

theorem pyInt_eq_floor (q : ℚ) (h : 0 ≤ q) : pyInt q = ⌊q⌋ := by
  unfold pyInt
  rw [if_neg (not_lt.mpr h)]

theorem get_duration_h_nonneg (s1 s2 : ℕ) (h : s1 ≤ s2) :
    0 ≤ get_duration_h s1 s2 := by
  unfold get_duration_h
  apply div_nonneg _ (by norm_num)
  simpa [sub_nonneg] using (Nat.cast_le (α := ℚ)).mpr h

/-! ### Claims -/

/-- C1: for a frequency row with frequency `f` trips/hour over a window of
duration `d` hours, the trip expander creates exactly `⌊f * d⌋` trips per
direction; a row with direction code 2 expands into directions 0 and 1,
each independently receiving that full count, so its total is
`2 * ⌊f * d⌋`. -/
theorem trip_expander_count (r : TripSpecRow) (sbw : Str → Str)
    (h : r.start_sec ≤ r.end_sec) :
    ((trips_for_row r sbw).length
        = (if r.direction = 2 then 2 else 1)
            * (⌊(r.frequency : ℚ) * get_duration_h r.start_sec r.end_sec⌋).toNat)
    ∧ (r.direction = 2 →
        (trips_for_row r sbw).countP (fun t => decide (t.direction_id = 0))
            = (⌊(r.frequency : ℚ) * get_duration_h r.start_sec r.end_sec⌋).toNat
        ∧ (trips_for_row r sbw).countP (fun t => decide (t.direction_id = 1))
            = (⌊(r.frequency : ℚ) * get_duration_h r.start_sec r.end_sec⌋).toNat) := by
  have hd := get_duration_h_nonneg r.start_sec r.end_sec h
  have hq : 0 ≤ (r.frequency : ℚ) * get_duration_h r.start_sec r.end_sec :=
    mul_nonneg (Nat.cast_nonneg _) hd
  by_cases h0 : r.frequency = 0
  · have hz : (⌊(r.frequency : ℚ) * get_duration_h r.start_sec r.end_sec⌋).toNat = 0 := by
      simp [h0]
    rw [hz]
    constructor
    · simp [trips_for_row, h0]
    · intro h2
      simp [trips_for_row, h0]
  · unfold trips_for_row
    rw [if_neg h0]
    dsimp only
    rw [pyInt_eq_floor _ hq]
    by_cases h2 : r.direction = 2
    · rw [if_pos h2, if_pos h2]
      refine ⟨?_, fun _ => ⟨?_, ?_⟩⟩
      · simp [List.length_flatMap, Nat.two_mul]
      · simp [List.countP_flatMap, List.countP_map, Function.comp_def, List.countP_true,
          List.countP_false]
      · simp [List.countP_flatMap, List.countP_map, Function.comp_def, List.countP_true,
          List.countP_false]
    · rw [if_neg h2, if_neg h2]
      exact ⟨by simp [List.length_flatMap], fun hc => absurd hc h2⟩

/-- Witness for C1 at the concrete row `wRow` (frequency 4, 2.5-hour
window, direction 2): 20 trips in total, 10 in each direction. -/
theorem trip_expander_count_witness :
    wRow.start_sec ≤ wRow.end_sec
    ∧ (((trips_for_row wRow wSbw).length
        = (if wRow.direction = 2 then 2 else 1)
            * (⌊(wRow.frequency : ℚ) * get_duration_h wRow.start_sec wRow.end_sec⌋).toNat)
    ∧ (wRow.direction = 2 →
        (trips_for_row wRow wSbw).countP (fun t => decide (t.direction_id = 0))
            = (⌊(wRow.frequency : ℚ) * get_duration_h wRow.start_sec wRow.end_sec⌋).toNat
        ∧ (trips_for_row wRow wSbw).countP (fun t => decide (t.direction_id = 1))
            = (⌊(wRow.frequency : ℚ) * get_duration_h wRow.start_sec wRow.end_sec⌋).toNat)) :=
  ⟨by decide, trip_expander_count wRow wSbw (by decide)⟩

/-- C8 (amended): splitting a constructed trip identifier on the reserved
separator recovers exactly the six components `t`, route ID, service
window ID, window start time string, direction digit, sequence index —
provided the route ID, window ID and start string are themselves free of
the separator (the direction and index components, being decimal digit
strings, always are). -/
theorem trip_id_roundtrip (r : TripSpecRow) (sbw : Str → Str)
    (h1 : SEP ∉ r.route_id) (h2 : SEP ∉ r.service_window_id)
    (h3 : SEP ∉ r.start_timestr) :
    ∀ t ∈ trips_for_row r sbw, ∃ d i : ℕ,
      splitOnChar SEP t.trip_id
        = ["t".toList, r.route_id, r.service_window_id, r.start_timestr,
           natToStr d, natToStr i]
      ∧ t.direction_id = d := by
  intro t ht
  unfold trips_for_row at ht
  by_cases h0 : r.frequency = 0
  · rw [if_pos h0] at ht
    exact absurd ht (List.not_mem_nil t)
  · rw [if_neg h0] at ht
    rcases List.mem_flatMap.mp ht with ⟨d, _hd, hmem⟩
    rcases List.mem_map.mp hmem with ⟨i, _hi, heq⟩
    refine ⟨d, i, ?_, ?_⟩
    · rw [← heq]
      apply splitOnChar_joinChar
      · simp
      · intro s hs
        simp only [List.mem_cons, List.not_mem_nil, or_false] at hs
        rcases hs with rfl | rfl | rfl | rfl | rfl | rfl
        · decide
        · exact h1
        · exact h2
        · exact h3
        · exact sep_not_mem_natToStr d
        · exact sep_not_mem_natToStr i
    · rw [← heq]

/-- Witness for C8's amended round-trip at the concrete row `wRow`. -/
theorem trip_id_roundtrip_witness :
    SEP ∉ wRow.route_id
    ∧ (∀ t ∈ trips_for_row wRow wSbw, ∃ d i : ℕ,
        splitOnChar SEP t.trip_id
          = ["t".toList, wRow.route_id, wRow.service_window_id, wRow.start_timestr,
             natToStr d, natToStr i]
        ∧ t.direction_id = d) :=
  ⟨by decide, trip_id_roundtrip wRow wSbw (by decide) (by decide) (by decide)⟩

/-- C8 counterexample: the trip expander builds a trip identifier from
route ID `r51-X` (route short name `51-X`), and splitting it on the
separator yields seven components, not the six the claim promises. -/
theorem trip_id_split_cex :
    ((trips_for_row cexTripRow wSbw).map
        (fun t => (splitOnChar SEP t.trip_id).length)) = [7] := by decide

theorem bitlists_foldl_aux (l : List SWindow) (acc : List (List ℕ)) (hnd : acc.Nodup) :
    (l.foldl (fun acc w => if w.flags ∈ acc then acc else acc ++ [w.flags]) acc).Nodup
    ∧ (l.foldl (fun acc w => if w.flags ∈ acc then acc else acc ++ [w.flags]) acc).toFinset
        = acc.toFinset ∪ (l.map SWindow.flags).toFinset := by
  induction l generalizing acc with
  | nil => simp [hnd]
  | cons w rest ih =>
    simp only [List.foldl_cons, List.map_cons, List.toFinset_cons]
    by_cases hw : w.flags ∈ acc
    · rw [if_pos hw]
      rcases ih acc hnd with ⟨ha, hb⟩
      refine ⟨ha, ?_⟩
      rw [hb]
      ext x
      simp only [Finset.mem_union, List.mem_toFinset, Finset.mem_insert]
      constructor
      · tauto
      · rintro (h | (rfl | h)) <;> tauto
    · rw [if_neg hw]
      have hnd2 : (acc ++ [w.flags]).Nodup := by
        simp only [List.nodup_append, List.nodup_cons, List.not_mem_nil, not_false_iff,
          List.nodup_nil, and_true, true_and, hnd]
        intro a ha hmem
        simp only [List.mem_singleton] at hmem
        exact hw (hmem ▸ ha)
      rcases ih _ hnd2 with ⟨ha, hb⟩
      refine ⟨ha, ?_⟩
      rw [hb]
      ext x
      simp only [Finset.mem_union, List.mem_toFinset, List.mem_append, List.mem_singleton,
        Finset.mem_insert]
      tauto

theorem bitlists_length (windows : List SWindow) :
    (bitlists windows).length = (windows.map SWindow.flags).toFinset.card := by
  rcases bitlists_foldl_aux windows [] List.nodup_nil with ⟨h1, h2⟩
  unfold bitlists
  rw [← List.toFinset_card_of_nodup h1, h2]
  simp

theorem sbw_foldl_not_mem (ws : List SWindow) (f : Str → Option Str) (x : Str)
    (hx : x ∉ ws.map SWindow.service_window_id) :
    ws.foldl
      (fun f w => fun x => if x = w.service_window_id then some (get_sid w.flags) else f x)
      f x = f x := by
  induction ws generalizing f with
  | nil => rfl
  | cons u rest ih =>
    simp only [List.map_cons, List.mem_cons, not_or] at hx
    rw [List.foldl_cons, ih _ hx.2]
    exact if_neg hx.1

theorem sbw_foldl_mem (ws : List SWindow) (f : Str → Option Str) (w : SWindow)
    (hw : w ∈ ws) (hnd : (ws.map SWindow.service_window_id).Nodup) :
    ws.foldl
      (fun f w => fun x => if x = w.service_window_id then some (get_sid w.flags) else f x)
      f w.service_window_id = some (get_sid w.flags) := by
  induction ws generalizing f with
  | nil => cases hw
  | cons u rest ih =>
    simp only [List.map_cons, List.nodup_cons] at hnd
    rcases hnd with ⟨hu, hrest⟩
    rcases List.mem_cons.mp hw with rfl | hw2
    · rw [List.foldl_cons, sbw_foldl_not_mem rest _ _ hu]
      simp
    · rw [List.foldl_cons]
      exact ih _ hw2 hrest

theorem service_by_window_lookup (windows : List SWindow) (w : SWindow)
    (hw : w ∈ windows) (hnd : (windows.map SWindow.service_window_id).Nodup) :
    service_by_window windows w.service_window_id = some (get_sid w.flags) :=
  sbw_foldl_mem windows _ w hw hnd

/-- C6: the calendar resolver emits exactly one calendar entry per
distinct 7-flag day-activation tuple (never one per window), and two
windows with identical flag tuples but different identifiers map to the
same derived service identifier. -/
theorem calendar_resolver (windows : List SWindow) (sd ed : Str) (w1 w2 : SWindow)
    (h1 : w1 ∈ windows) (h2 : w2 ∈ windows)
    (hnd : (windows.map SWindow.service_window_id).Nodup)
    (hfl : w1.flags = w2.flags) :
    (build_calendar_etc windows sd ed).1.length
      = (windows.map SWindow.flags).toFinset.card
    ∧ (build_calendar_etc windows sd ed).2 w1.service_window_id
        = some (get_sid w1.flags)
    ∧ (build_calendar_etc windows sd ed).2 w1.service_window_id
        = (build_calendar_etc windows sd ed).2 w2.service_window_id := by
  refine ⟨?_, ?_, ?_⟩
  · show ((bitlists windows).map _).length = _
    rw [List.length_map]
    exact bitlists_length windows
  · exact service_by_window_lookup windows w1 h1 hnd
  · show service_by_window windows w1.service_window_id
        = service_by_window windows w2.service_window_id
    rw [service_by_window_lookup windows w1 h1 hnd,
      service_by_window_lookup windows w2 h2 hnd, hfl]

/-- Witness for C6: three windows, two of them sharing the weekday flag
tuple, collapse to two calendar entries and one shared service ID. -/
theorem calendar_resolver_witness :
    wWinA ∈ wWindows
    ∧ ((build_calendar_etc wWindows "20200101".toList "20210101".toList).1.length
        = (wWindows.map SWindow.flags).toFinset.card
      ∧ (build_calendar_etc wWindows "20200101".toList "20210101".toList).2
          wWinA.service_window_id = some (get_sid wWinA.flags)
      ∧ (build_calendar_etc wWindows "20200101".toList "20210101".toList).2
          wWinA.service_window_id
        = (build_calendar_etc wWindows "20200101".toList "20210101".toList).2
          wWinB.service_window_id) :=
  ⟨by decide,
   calendar_resolver wWindows "20200101".toList "20210101".toList wWinA wWinB
     (by decide) (by decide) (by decide) (by decide)⟩

theorem one_lt_dedup_length {α : Type} [DecidableEq α] (l : List α) (a b : α)
    (ha : a ∈ l) (hb : b ∈ l) (hab : a ≠ b) : 1 < l.dedup.length := by
  have ha2 : a ∈ l.dedup := List.mem_dedup.mpr ha
  have hb2 : b ∈ l.dedup := List.mem_dedup.mpr hb
  rcases hd : l.dedup with _ | ⟨x, _ | ⟨y, tl⟩⟩
  · rw [hd] at ha2
    cases ha2
  · rw [hd] at ha2 hb2
    rcases List.mem_singleton.mp ha2 with rfl
    exact absurd (List.mem_singleton.mp hb2).symm hab
  · simp

theorem shape_points_mk (shid : Str) (coords : List Point) :
    shape_points (mk_shape_rows shid coords) = coords := by
  unfold shape_points mk_shape_rows
  rw [List.map_map]
  have : ((fun r : ShapeRow => (r.shape_pt_lon, r.shape_pt_lat)) ∘
      (fun p : ℕ × Point =>
        ({ shape_id := shid, shape_pt_sequence := p.1
           shape_pt_lon := p.2.1, shape_pt_lat := p.2.2 } : ShapeRow)))
      = fun p : ℕ × Point => p.2 := by
    funext p
    rfl
  rw [this, List.enum_map_snd]

theorem mem_map_shape_id_mk (x : Str) (shid : Str) (coords : List Point) :
    x ∈ (mk_shape_rows shid coords).map ShapeRow.shape_id ↔ coords ≠ [] ∧ x = shid := by
  unfold mk_shape_rows
  rw [List.map_map]
  constructor
  · intro hx
    rcases List.mem_map.mp hx with ⟨p, hp, hpe⟩
    refine ⟨?_, hpe.symm⟩
    intro hnil
    rw [hnil] at hp
    simp at hp
  · rintro ⟨hnil, rfl⟩
    rcases List.exists_mem_of_ne_nil coords hnil with ⟨p, hp⟩
    rcases List.mem_iff_get.mp hp with ⟨i, hi⟩
    refine List.mem_map.mpr ⟨(i.1, p), ?_, rfl⟩
    rw [← hi]
    exact List.mem_enum_iff_getElem?.mpr (by simp)

/-- C5: a path referenced by a frequency row with direction 2 (or by rows
with several distinct directions) aggregates to direction 2 and yields
exactly two shapes — the verbatim point sequence tagged `-1` and its
exact reverse tagged `-0`; a path referenced with a single direction
yields exactly one shape tagged with that direction; an unreferenced path
yields no shapes. -/
theorem shape_builder (freqs : List FreqRow) (s : Str) (coords : List Point)
    (hne : coords ≠ []) :
    ((∃ r ∈ freqs, r.shape_id = s ∧ r.direction = 2) ∨
      (∃ r1 ∈ freqs, ∃ r2 ∈ freqs,
        r1.shape_id = s ∧ r2.shape_id = s ∧ r1.direction ≠ r2.direction) →
      shapes_extra freqs s = some 2)
    ∧ (shapes_extra freqs s = some 2 →
        build_shapes_for_path freqs s coords
          = mk_shape_rows (s ++ "-1".toList) coords
            ++ mk_shape_rows (s ++ "-0".toList) coords.reverse
        ∧ shape_points (mk_shape_rows (s ++ "-0".toList) coords.reverse)
            = (shape_points (mk_shape_rows (s ++ "-1".toList) coords)).reverse
        ∧ ((build_shapes_for_path freqs s coords).map ShapeRow.shape_id).toFinset
            = {s ++ "-1".toList, s ++ "-0".toList})
    ∧ (∀ d, shapes_extra freqs s = some d → d ≠ 2 →
        build_shapes_for_path freqs s coords
          = mk_shape_rows (s ++ SEP :: natToStr d) coords
        ∧ ((build_shapes_for_path freqs s coords).map ShapeRow.shape_id).toFinset
            = {s ++ SEP :: natToStr d})
    ∧ ((∀ r ∈ freqs, r.shape_id ≠ s) → build_shapes_for_path freqs s coords = []) := by
  have hmemdir : ∀ r ∈ freqs, r.shape_id = s →
      r.direction ∈ (freqs.filter (fun r => decide (r.shape_id = s))).map FreqRow.direction := by
    intro r hr hs
    exact List.mem_map.mpr ⟨r, List.mem_filter.mpr ⟨hr, by simp [hs]⟩, rfl⟩
  refine ⟨?_, ?_, ?_, ?_⟩
  · intro hdisj
    unfold shapes_extra
    have h2 : 1 < ((freqs.filter (fun r => decide (r.shape_id = s))).map
          FreqRow.direction).dedup.length
        ∨ 2 ∈ (freqs.filter (fun r => decide (r.shape_id = s))).map FreqRow.direction := by
      rcases hdisj with ⟨r, hr, hs, h2⟩ | ⟨r1, hr1, r2, hr2, hs1, hs2, hdd⟩
      · exact Or.inr (h2 ▸ hmemdir r hr hs)
      · exact Or.inl (one_lt_dedup_length _ _ _
          (hmemdir r1 hr1 hs1) (hmemdir r2 hr2 hs2) hdd)
    have hne2 : ¬ ((freqs.filter (fun r => decide (r.shape_id = s))).map
        FreqRow.direction).isEmpty := by
      rcases h2 with h2 | h2
      · intro hE
        rw [List.isEmpty_iff] at hE
        rw [hE] at h2
        simp at h2
      · intro hE
        rw [List.isEmpty_iff] at hE
        rw [hE] at h2
        cases h2
    rw [if_neg hne2]
    unfold my_agg_direction
    rw [if_pos h2]
  · intro h
    have hprod : build_shapes_for_path freqs s coords
        = mk_shape_rows (s ++ "-1".toList) coords
          ++ mk_shape_rows (s ++ "-0".toList) coords.reverse := by
      unfold build_shapes_for_path
      rw [h]
      simp
    refine ⟨hprod, ?_, ?_⟩
    · rw [shape_points_mk, shape_points_mk]
    · rw [hprod]
      ext x
      simp only [List.map_append, List.toFinset_append, Finset.mem_union,
        List.mem_toFinset, mem_map_shape_id_mk, Finset.mem_insert, Finset.mem_singleton]
      have hner : coords.reverse ≠ [] := by
        simpa using hne
      constructor
      · rintro (⟨_, rfl⟩ | ⟨_, rfl⟩)
        · exact Or.inl rfl
        · exact Or.inr rfl
      · rintro (rfl | rfl)
        · exact Or.inl ⟨hne, rfl⟩
        · exact Or.inr ⟨hner, rfl⟩
  · intro d h hd2
    have hprod : build_shapes_for_path freqs s coords
        = mk_shape_rows (s ++ SEP :: natToStr d) coords := by
      unfold build_shapes_for_path
      rw [h]
      simp [hd2]
    refine ⟨hprod, ?_⟩
    rw [hprod]
    ext x
    simp only [List.mem_toFinset, mem_map_shape_id_mk, Finset.mem_singleton]
    constructor
    · rintro ⟨_, rfl⟩
      rfl
    · rintro rfl
      exact ⟨hne, rfl⟩
  · intro hun
    have hfil : freqs.filter (fun r => decide (r.shape_id = s)) = [] := by
      apply List.filter_eq_nil_iff.mpr
      intro r hr
      simpa using hun r hr
    unfold build_shapes_for_path shapes_extra
    rw [hfil]
    simp

/-- Witness for C5: a path with two frequency rows of directions 0 and 1
aggregates to direction 2 and produces the tagged pair of mutually
reversed shapes. -/
theorem shape_builder_witness :
    ([(0, 0), (1, 1), (2, 0)] : List Point) ≠ []
    ∧ (((∃ r ∈ [(⟨"s1".toList, 0⟩ : FreqRow), ⟨"s1".toList, 1⟩],
          r.shape_id = "s1".toList ∧ r.direction = 2) ∨
        (∃ r1 ∈ [(⟨"s1".toList, 0⟩ : FreqRow), ⟨"s1".toList, 1⟩],
          ∃ r2 ∈ [(⟨"s1".toList, 0⟩ : FreqRow), ⟨"s1".toList, 1⟩],
          r1.shape_id = "s1".toList ∧ r2.shape_id = "s1".toList
            ∧ r1.direction ≠ r2.direction) →
        shapes_extra [(⟨"s1".toList, 0⟩ : FreqRow), ⟨"s1".toList, 1⟩] "s1".toList = some 2)
      ∧ (shapes_extra [(⟨"s1".toList, 0⟩ : FreqRow), ⟨"s1".toList, 1⟩] "s1".toList = some 2 →
          build_shapes_for_path [(⟨"s1".toList, 0⟩ : FreqRow), ⟨"s1".toList, 1⟩]
              "s1".toList [(0, 0), (1, 1), (2, 0)]
            = mk_shape_rows ("s1".toList ++ "-1".toList) [(0, 0), (1, 1), (2, 0)]
              ++ mk_shape_rows ("s1".toList ++ "-0".toList)
                  ([(0, 0), (1, 1), (2, 0)] : List Point).reverse
          ∧ shape_points (mk_shape_rows ("s1".toList ++ "-0".toList)
                ([(0, 0), (1, 1), (2, 0)] : List Point).reverse)
              = (shape_points (mk_shape_rows ("s1".toList ++ "-1".toList)
                  [(0, 0), (1, 1), (2, 0)])).reverse
          ∧ ((build_shapes_for_path [(⟨"s1".toList, 0⟩ : FreqRow), ⟨"s1".toList, 1⟩]
                "s1".toList [(0, 0), (1, 1), (2, 0)]).map ShapeRow.shape_id).toFinset
              = {"s1".toList ++ "-1".toList, "s1".toList ++ "-0".toList})
      ∧ (∀ d, shapes_extra [(⟨"s1".toList, 0⟩ : FreqRow), ⟨"s1".toList, 1⟩]
            "s1".toList = some d → d ≠ 2 →
          build_shapes_for_path [(⟨"s1".toList, 0⟩ : FreqRow), ⟨"s1".toList, 1⟩]
              "s1".toList [(0, 0), (1, 1), (2, 0)]
            = mk_shape_rows ("s1".toList ++ SEP :: natToStr d) [(0, 0), (1, 1), (2, 0)]
          ∧ ((build_shapes_for_path [(⟨"s1".toList, 0⟩ : FreqRow), ⟨"s1".toList, 1⟩]
                "s1".toList [(0, 0), (1, 1), (2, 0)]).map ShapeRow.shape_id).toFinset
              = {"s1".toList ++ SEP :: natToStr d})
      ∧ ((∀ r ∈ [(⟨"s1".toList, 0⟩ : FreqRow), ⟨"s1".toList, 1⟩],
            r.shape_id ≠ "s1".toList) →
          build_shapes_for_path [(⟨"s1".toList, 0⟩ : FreqRow), ⟨"s1".toList, 1⟩]
            "s1".toList [(0, 0), (1, 1), (2, 0)] = [])) :=
  ⟨by decide,
   shape_builder [⟨"s1".toList, 0⟩, ⟨"s1".toList, 1⟩] "s1".toList
     [(0, 0), (1, 1), (2, 0)] (by decide)⟩

theorem build_stops_synthetic_length (geo : List (Str × List Point)) :
    (build_stops none geo).length = 2 * geo.length := by
  unfold build_stops
  induction geo with
  | nil => rfl
  | cons g rest ih =>
    rw [List.flatMap_cons, List.length_append, ih]
    show 2 + 2 * rest.length = 2 * (rest.length + 1)
    ring

/-- C2: in synthetic-stop mode every built shape yields exactly two
stops — placed at the normalized-position-0 point (the linestring's first
vertex) and the normalized-position-1 point (its last vertex), with
identifiers and names derived from the shape identifier — and every trip
with nonzero frequency yields exactly two stop-time rows: one at distance
0 with the trip's start time and one at the shape's full length with the
trip's end time, arrival equal to departure in each row. -/
theorem synthetic_mode (geo : List (Str × List Point)) (s : Str) (coords : List Point)
    (trip shape : Str) (lenM speed : ℚ) (freq : ℕ)
    (p0 route window base dir istr : Str) (b dv iv : ℕ)
    (hf : freq ≠ 0)
    (hsplit : splitOnChar SEP trip = [p0, route, window, base, dir, istr])
    (hbase : timestr_to_seconds base = some b)
    (hdir : strToNatD dir = some dv)
    (hidx : strToNatD istr = some iv) :
    (build_stops none geo).length = 2 * geo.length
    ∧ build_stops_for_shape s coords
        = [{ stop_id := (build_stop_ids s).getD 0 []
             stop_name := (build_stop_names s).getD 0 []
             stop_lon := (coords.headD (0, 0)).1, stop_lat := (coords.headD (0, 0)).2 },
           { stop_id := (build_stop_ids s).getD 1 []
             stop_name := (build_stop_names s).getD 1 []
             stop_lon := (coords.getLastD (0, 0)).1, stop_lat := (coords.getLastD (0, 0)).2 }]
    ∧ trip_rows_synthetic trip shape lenM speed freq
        = some
          [{ trip_id := trip, stop_id := (build_stop_ids shape).getD 0 []
             stop_sequence := 0
             arrival_time := (b : ℚ) + 3600 / (freq : ℚ) * (iv : ℚ)
             departure_time := (b : ℚ) + 3600 / (freq : ℚ) * (iv : ℚ)
             shape_dist_traveled := 0 },
           { trip_id := trip, stop_id := (build_stop_ids shape).getD 1 []
             stop_sequence := 1
             arrival_time := (b : ℚ) + 3600 / (freq : ℚ) * (iv : ℚ)
               + (pyInt (lenM / 1000 / speed * 3600) : ℚ)
             departure_time := (b : ℚ) + 3600 / (freq : ℚ) * (iv : ℚ)
               + (pyInt (lenM / 1000 / speed * 3600) : ℚ)
             shape_dist_traveled := lenM / 1000 }] := by
  refine ⟨build_stops_synthetic_length geo, ?_, ?_⟩
  · rfl
  · unfold trip_rows_synthetic
    rw [if_neg hf]
    dsimp only
    rw [hsplit]
    dsimp only
    rw [hbase, hdir, hidx]

/-- Witness for C2 with a one-shape registry and the trip `wTripId` at
frequency 4 and speed 10 km/h on a 2 km shape. -/
theorem synthetic_mode_witness :
    (4 : ℕ) ≠ 0
    ∧ ((build_stops none wGeo).length = 2 * wGeo.length
      ∧ build_stops_for_shape wShapeId wCoords
          = [{ stop_id := (build_stop_ids wShapeId).getD 0 []
               stop_name := (build_stop_names wShapeId).getD 0 []
               stop_lon := (wCoords.headD (0, 0)).1
               stop_lat := (wCoords.headD (0, 0)).2 },
             { stop_id := (build_stop_ids wShapeId).getD 1 []
               stop_name := (build_stop_names wShapeId).getD 1 []
               stop_lon := (wCoords.getLastD (0, 0)).1
               stop_lat := (wCoords.getLastD (0, 0)).2 }]
      ∧ trip_rows_synthetic wTripId wShapeId 2000 10 4
          = some
            [{ trip_id := wTripId, stop_id := (build_stop_ids wShapeId).getD 0 []
               stop_sequence := 0
               arrival_time := ((21600 : ℕ) : ℚ) + 3600 / ((4 : ℕ) : ℚ) * ((2 : ℕ) : ℚ)
               departure_time := ((21600 : ℕ) : ℚ) + 3600 / ((4 : ℕ) : ℚ) * ((2 : ℕ) : ℚ)
               shape_dist_traveled := 0 },
             { trip_id := wTripId, stop_id := (build_stop_ids wShapeId).getD 1 []
               stop_sequence := 1
               arrival_time := ((21600 : ℕ) : ℚ) + 3600 / ((4 : ℕ) : ℚ) * ((2 : ℕ) : ℚ)
                 + (pyInt ((2000 : ℚ) / 1000 / 10 * 3600) : ℚ)
               departure_time := ((21600 : ℕ) : ℚ) + 3600 / ((4 : ℕ) : ℚ) * ((2 : ℕ) : ℚ)
                 + (pyInt ((2000 : ℚ) / 1000 / 10 * 3600) : ℚ)
               shape_dist_traveled := (2000 : ℚ) / 1000 }]) :=
  ⟨by decide,
   synthetic_mode wGeo wShapeId wCoords wTripId wShapeId 2000 10 4
     "t".toList "rA".toList "w1".toList "06:00:00".toList "0".toList "2".toList
     21600 0 2
     (by decide) (by decide) (by decide) (by decide) (by decide)⟩

/-- C9 counterexample: an explicitly supplied stop registry is passed
through the Stop Placement Engine unchanged, but the Feed Assembler then
removes its stop because it is absent from the (here empty) stop-time
table — the explicit registry is not left as-is. -/
theorem feed_assembler_cex :
    build_stops (some [cexStop]) [] = [cexStop]
    ∧ build_feed_stops (build_stops (some [cexStop]) []) [] = []
    ∧ [cexStop] ≠ ([] : List StopRow) := by decide

/-- C9 (amended): the Feed Assembler removes exactly the stops —
synthesized or explicitly supplied — whose identifiers are absent from
the final stop-time table; retained rows are kept verbatim and in
order. -/
theorem feed_assembler_only_removes (stops : List StopRow) (stop_times : List STRow) :
    (build_feed_stops stops stop_times).Sublist stops
    ∧ (∀ r, r ∈ build_feed_stops stops stop_times ↔
        r ∈ stops ∧ r.stop_id ∈ stop_times.map STRow.stop_id) := by
  refine ⟨List.filter_sublist _, ?_⟩
  intro r
  unfold build_feed_stops
  rw [List.mem_filter]
  simp

/-- C10: constructing a ProtoFeed with a non-None frequencies table
mutates the caller's frequencies object in place — the heap cell the
caller passed in afterwards holds the cleaned table (missing route types
filled with 3, a speed column added if absent, missing speeds filled with
the network default), no new object is allocated, the constructed feed
references the caller's object, and no other heap object changes. -/
theorem protofeed_init_mutates (store : List FreqTable) (freq_ref : ℕ) (dspeed : ℚ)
    (hr : freq_ref < store.length) :
    (protofeed_init store freq_ref dspeed).2.frequencies_ref = freq_ref
    ∧ (protofeed_init store freq_ref dspeed).1.getD freq_ref emptyFreqTable
        = clean_frequencies dspeed (store.getD freq_ref emptyFreqTable)
    ∧ (protofeed_init store freq_ref dspeed).1.length = store.length
    ∧ ((store.getD freq_ref emptyFreqTable).has_speed_col = false →
        (protofeed_init store freq_ref dspeed).1.getD freq_ref emptyFreqTable
          ≠ store.getD freq_ref emptyFreqTable)
    ∧ (∀ j, j ≠ freq_ref →
        (protofeed_init store freq_ref dspeed).1.getD j emptyFreqTable
          = store.getD j emptyFreqTable) := by
  have hcell : (protofeed_init store freq_ref dspeed).1.getD freq_ref emptyFreqTable
      = clean_frequencies dspeed (store.getD freq_ref emptyFreqTable) := by
    unfold protofeed_init
    rw [List.getD_eq_getElem?_getD, List.getElem?_set_self hr]
    rfl
  refine ⟨rfl, hcell, ?_, ?_, ?_⟩
  · unfold protofeed_init
    exact List.length_set store freq_ref _
  · intro hcol heq
    rw [hcell] at heq
    have : (clean_frequencies dspeed (store.getD freq_ref emptyFreqTable)).has_speed_col
        = (store.getD freq_ref emptyFreqTable).has_speed_col := congrArg _ heq
    rw [hcol] at this
    simp [clean_frequencies] at this
  · intro j hj
    unfold protofeed_init
    rw [List.getD_eq_getElem?_getD, List.getD_eq_getElem?_getD,
      List.getElem?_set_ne (fun he => hj he.symm)]
    exact (List.getD_eq_getElem?_getD store j emptyFreqTable).symm

/-- Witness for C10 on the one-table heap `wStore`: the caller-visible
object at address 0 is changed to the cleaned table. -/
theorem protofeed_init_mutates_witness :
    0 < wStore.length
    ∧ ((protofeed_init wStore 0 40).2.frequencies_ref = 0
      ∧ (protofeed_init wStore 0 40).1.getD 0 emptyFreqTable
          = clean_frequencies 40 (wStore.getD 0 emptyFreqTable)
      ∧ (protofeed_init wStore 0 40).1.length = wStore.length
      ∧ ((wStore.getD 0 emptyFreqTable).has_speed_col = false →
          (protofeed_init wStore 0 40).1.getD 0 emptyFreqTable
            ≠ wStore.getD 0 emptyFreqTable)
      ∧ (∀ j, j ≠ 0 →
          (protofeed_init wStore 0 40).1.getD j emptyFreqTable
            = wStore.getD j emptyFreqTable)) :=
  ⟨by decide, protofeed_init_mutates wStore 0 40 (by decide)⟩

/-- C7 evaluated at the failing input: a trip whose buffer holds no
stops makes `compute_stops_dists_times` raise (the `ValueError` from
unpacking `zip(*sorted([]))`), and the whole explicit-mode stop-time
build aborts — including the sibling trip that on its own would have
produced rows — instead of yielding zero rows for just that trip. -/
theorem empty_stop_buffer_aborts :
    trip_rows_explicit emptyBufferTrip = none
    ∧ build_stop_times_explicit [okTrip, emptyBufferTrip] = none
    ∧ build_stop_times_explicit [okTrip] ≠ none := by decide

theorem np_interp_mono (d0 d1 t0 t1 x y : ℚ) (ht : t0 ≤ t1)
    (hxy : x ≤ y) : np_interp x d0 d1 t0 t1 ≤ np_interp y d0 d1 t0 t1 := by
  unfold np_interp
  by_cases hx0 : x ≤ d0
  · rw [if_pos hx0]
    by_cases hy0 : y ≤ d0
    · rw [if_pos hy0]
    · rw [if_neg hy0]
      by_cases hy1 : d1 ≤ y
      · rw [if_pos hy1]
        exact ht
      · rw [if_neg hy1]
        have hyd : d0 < y := not_le.mp hy0
        have hy1' : y < d1 := not_le.mp hy1
        have hden : (0 : ℚ) < d1 - d0 := by linarith
        have hnum : 0 ≤ (y - d0) * (t1 - t0) := mul_nonneg (by linarith) (by linarith)
        have := div_nonneg hnum (le_of_lt hden)
        linarith
  · rw [if_neg hx0]
    have hx0' : d0 < x := not_le.mp hx0
    have hy0 : ¬ y ≤ d0 := fun hy => hx0 (hxy.trans hy)
    rw [if_neg hy0]
    by_cases hx1 : d1 ≤ x
    · rw [if_pos hx1, if_pos (hx1.trans hxy)]
    · rw [if_neg hx1]
      have hx1' : x < d1 := not_le.mp hx1
      have hden : (0 : ℚ) < d1 - d0 := by linarith
      by_cases hy1 : d1 ≤ y
      · rw [if_pos hy1]
        have hstep : (x - d0) * (t1 - t0) / (d1 - d0) ≤ t1 - t0 :=
          (div_le_iff₀ hden).mpr (by nlinarith)
        linarith
      · rw [if_neg hy1]
        have hcmp : (x - d0) * (t1 - t0) ≤ (y - d0) * (t1 - t0) := by nlinarith
        have hstep : (x - d0) * (t1 - t0) / (d1 - d0) ≤ (y - d0) * (t1 - t0) / (d1 - d0) := by
          gcongr
        linarith

theorem pairwise_fst_of_sorted (l : List (ℚ × Str)) (h : List.Pairwise pairLe l) :
    (l.map Prod.fst).Pairwise (· ≤ ·) := by
  rw [List.pairwise_map]
  refine h.imp ?_
  intro a b hab
  rcases hab with hab | ⟨hab, _⟩
  · exact le_of_lt hab
  · exact le_of_eq hab

theorem pairwise_headD_le_getLastD (l : List ℚ) (hp : l.Pairwise (· ≤ ·))
    (hne : l ≠ []) : l.headD 0 ≤ l.getLastD 0 := by
  cases l with
  | nil => exact absurd rfl hne
  | cons a t =>
    have hmem : (a :: t).getLastD 0 ∈ a :: t := by
      rw [List.getLastD_eq_getLast?, List.getLast?_eq_getLast _ (List.cons_ne_nil a t)]
      exact List.getLast_mem _
    rcases List.mem_cons.mp hmem with heq | hmem2
    · exact le_of_eq heq.symm
    · exact List.rel_of_pairwise_cons hp hmem2

theorem compute_sdt_inv (pairs : List (Str × ℚ)) (lenM t0 t1 : ℚ)
    (stops : List Str) (dists times : List ℚ)
    (h : compute_stops_dists_times pairs lenM t0 t1 = some (stops, dists, times)) :
    stops = (List.insertionSort pairLe (pairs.map (fun p => (p.2 / 1000, p.1)))).map Prod.snd
    ∧ times = dists.map (fun x => np_interp x (dists.headD 0) (dists.getLastD 0) t0 t1)
    ∧ dists.length = pairs.length
    ∧ pairs ≠ []
    ∧ ((dists = (List.insertionSort pairLe (pairs.map (fun p => (p.2 / 1000, p.1)))).map
            Prod.fst
         ∧ ∀ p ∈ pairs, p.2 / 1000 < lenM / 1000 + 100)
       ∨ (dists = (List.range pairs.length).map
            (fun i : ℕ => (i : ℚ) * (lenM / 1000 / ((pairs.length : ℚ) - 1)))
         ∧ 2 ≤ pairs.length
         ∧ ∃ p ∈ pairs, lenM / 1000 + 100 ≤ p.2 / 1000)) := by
  have hperm : (List.insertionSort pairLe (pairs.map (fun p => (p.2 / 1000, p.1)))).Perm
      (pairs.map (fun p => (p.2 / 1000, p.1))) := List.perm_insertionSort _ _
  have hpermfst : ((List.insertionSort pairLe
        (pairs.map (fun p => (p.2 / 1000, p.1)))).map Prod.fst).Perm
      (pairs.map (fun p => p.2 / 1000)) := by
    have := hperm.map Prod.fst
    rwa [List.map_map] at this
  have hlen : (List.insertionSort pairLe (pairs.map (fun p => (p.2 / 1000, p.1)))).length
      = pairs.length := by
    rw [List.length_insertionSort, List.length_map]
  unfold compute_stops_dists_times at h
  dsimp only at h
  split at h
  · exact absurd h (by simp)
  · rename_i hne
    rw [List.isEmpty_iff] at hne
    have hpairs : pairs ≠ [] := by
      intro hnil
      apply hne
      rw [hnil]
      rfl
    split at h
    · rename_i hall
      simp only [Option.some.injEq, Prod.mk.injEq] at h
      rcases h with ⟨hstops, hdists, htimes⟩
      subst hstops
      subst hdists
      subst htimes
      refine ⟨rfl, rfl, by rw [List.length_map, hlen], hpairs, Or.inl ⟨rfl, ?_⟩⟩
      intro p hp
      have hmem : p.2 / 1000
          ∈ (List.insertionSort pairLe (pairs.map (fun q => (q.2 / 1000, q.1)))).map
              Prod.fst := by
        rw [hpermfst.mem_iff]
        exact List.mem_map.mpr ⟨p, hp, rfl⟩
      have := List.all_eq_true.mp hall _ hmem
      exact of_decide_eq_true this
    · rename_i hall
      split at h
      · exact absurd h (by simp)
      · rename_i hone
        have hlen2 : ((List.insertionSort pairLe
            (pairs.map (fun p => (p.2 / 1000, p.1)))).map Prod.snd).length
            = pairs.length := by
          rw [List.length_map, hlen]
        simp only [Option.some.injEq, Prod.mk.injEq] at h
        rcases h with ⟨hstops, hdists, htimes⟩
        subst hstops
        subst hdists
        subst htimes
        rw [hlen2] at hone ⊢
        have hp2 : 2 ≤ pairs.length := by
          have h1 : pairs.length ≠ 0 := fun h0 => hpairs (List.length_eq_zero.mp h0)
          omega
        refine ⟨rfl, rfl, by rw [List.length_map, List.length_range], hpairs,
          Or.inr ⟨rfl, hp2, ?_⟩⟩
        have hfalse : ¬ (∀ x ∈ (List.insertionSort pairLe
            (pairs.map (fun p => (p.2 / 1000, p.1)))).map Prod.fst,
              decide (x < lenM / 1000 + 100) = true) := by
          intro hforall
          exact hall (List.all_eq_true.mpr hforall)
        push_neg at hfalse
        rcases hfalse with ⟨x, hx, hxlt⟩
        rw [hpermfst.mem_iff] at hx
        rcases List.mem_map.mp hx with ⟨p, hp, rfl⟩
        refine ⟨p, hp, ?_⟩
        have := fun hub => hxlt (decide_eq_true hub)
        exact not_lt.mp this

theorem compute_sdt_total (pairs : List (Str × ℚ)) (lenM t0 t1 : ℚ)
    (h2 : 2 ≤ pairs.length) :
    ∃ res, compute_stops_dists_times pairs lenM t0 t1 = some res := by
  have hlen : (List.insertionSort pairLe (pairs.map (fun p => (p.2 / 1000, p.1)))).length
      = pairs.length := by
    rw [List.length_insertionSort, List.length_map]
  unfold compute_stops_dists_times
  dsimp only
  have hne : ¬ (List.insertionSort pairLe
      (pairs.map (fun p => (p.2 / 1000, p.1)))).isEmpty = true := by
    rw [List.isEmpty_iff]
    intro hnil
    rw [hnil] at hlen
    simp only [List.length_nil] at hlen
    omega
  rw [if_neg hne]
  split
  · exact ⟨_, rfl⟩
  · have hlen2 : ((List.insertionSort pairLe
        (pairs.map (fun p => (p.2 / 1000, p.1)))).map Prod.snd).length = pairs.length := by
      rw [List.length_map, hlen]
    rw [if_neg (by omega : ¬ ((List.insertionSort pairLe
        (pairs.map (fun p => (p.2 / 1000, p.1)))).map Prod.snd).length = 1)]
    exact ⟨_, rfl⟩

/-- C3: in explicit-stop mode, a trip with at least one measured
along-shape distance reaching shape length + 100 km has all its measured
distances discarded and replaced by `n` evenly spaced distances
`i * (length / (n - 1))` ending exactly at the shape's length; a trip
whose measured distances all stay below the threshold keeps exactly its
measured distance values (sorted ascending). -/
theorem dist_fallback (pairs : List (Str × ℚ)) (lenM t0 t1 : ℚ)
    (h2 : 2 ≤ pairs.length) :
    ((∃ p ∈ pairs, lenM / 1000 + 100 ≤ p.2 / 1000) →
      (compute_stops_dists_times pairs lenM t0 t1).map (fun r => r.2.1)
        = some ((List.range pairs.length).map
            (fun i : ℕ => (i : ℚ) * (lenM / 1000 / ((pairs.length : ℚ) - 1))))
      ∧ (compute_stops_dists_times pairs lenM t0 t1).map (fun r => (r.2.1).getLastD 0)
        = some (lenM / 1000))
    ∧ ((∀ p ∈ pairs, p.2 / 1000 < lenM / 1000 + 100) →
      ∃ dists, (compute_stops_dists_times pairs lenM t0 t1).map (fun r => r.2.1)
          = some dists
        ∧ dists.Perm (pairs.map (fun p => p.2 / 1000))
        ∧ dists.Chain' (· ≤ ·)) := by
  rcases compute_sdt_total pairs lenM t0 t1 h2 with ⟨⟨stops, dists, times⟩, hres⟩
  rcases compute_sdt_inv pairs lenM t0 t1 stops dists times hres with
    ⟨_hstops, _htimes, _hlen, _hpairs, hcase⟩
  constructor
  · intro hviol
    rcases hcase with ⟨_, hall⟩ | ⟨hdists, _, _⟩
    · rcases hviol with ⟨p, hp, hge⟩
      exact absurd (hall p hp) (not_lt.mpr hge)
    · have hformula : dists = (List.range pairs.length).map
          (fun i : ℕ => (i : ℚ) * (lenM / 1000 / ((pairs.length : ℚ) - 1))) := hdists
      constructor
      · rw [hres]
        exact congrArg some hformula
      · rw [hres]
        refine congrArg some ?_
        rw [hformula]
        have hnz : ((pairs.length : ℚ) - 1) ≠ 0 := by
          have : (2 : ℚ) ≤ (pairs.length : ℚ) := by exact_mod_cast h2
          intro hzero
          nlinarith
        rcases Nat.exists_eq_add_of_le h2 with ⟨k, hk⟩
        rw [hk]
        rw [show 2 + k = (1 + k) + 1 by omega, List.range_succ, List.map_append]
        simp only [List.map_cons, List.map_nil]
        rw [List.getLastD_concat]
        push_cast
        rw [hk] at hnz
        push_cast at hnz
        field_simp
        ring
  · intro hall
    rcases hcase with ⟨hdists, _⟩ | ⟨_, _, p, hp, hge⟩
    · refine ⟨dists, by rw [hres]; rfl, ?_, ?_⟩
      · rw [hdists]
        have := (List.perm_insertionSort pairLe
          (pairs.map (fun p => (p.2 / 1000, p.1)))).map Prod.fst
        rwa [List.map_map] at this
      · rw [hdists]
        exact (pairwise_fst_of_sorted _
          (List.sorted_insertionSort pairLe _)).chain'
    · exact absurd (hall p hp) (not_lt.mpr hge)

/-- Witness for C3: two stops measured at 1 km and 3 km on a 5 km shape
(all plausible), and the same shape with one stop measured beyond the
105 km threshold (fallback fires). -/
theorem dist_fallback_witness :
    2 ≤ ([(("a".toList : Str), (1000 : ℚ)), ("b".toList, 3000)] : List (Str × ℚ)).length
    ∧ (((∃ p ∈ ([(("a".toList : Str), (1000 : ℚ)), ("b".toList, 3000)] : List (Str × ℚ)),
          (5000 : ℚ) / 1000 + 100 ≤ p.2 / 1000) →
        (compute_stops_dists_times [("a".toList, 1000), ("b".toList, 3000)] 5000 0 100).map
            (fun r => r.2.1)
          = some ((List.range
              ([(("a".toList : Str), (1000 : ℚ)), ("b".toList, 3000)] :
                List (Str × ℚ)).length).map
              (fun i : ℕ => (i : ℚ) * ((5000 : ℚ) / 1000
                / ((([(("a".toList : Str), (1000 : ℚ)), ("b".toList, 3000)] :
                    List (Str × ℚ)).length : ℚ) - 1))))
        ∧ (compute_stops_dists_times [("a".toList, 1000), ("b".toList, 3000)] 5000 0 100).map
            (fun r => (r.2.1).getLastD 0) = some ((5000 : ℚ) / 1000))
      ∧ ((∀ p ∈ ([(("a".toList : Str), (1000 : ℚ)), ("b".toList, 3000)] : List (Str × ℚ)),
          p.2 / 1000 < (5000 : ℚ) / 1000 + 100) →
        ∃ dists,
          (compute_stops_dists_times [("a".toList, 1000), ("b".toList, 3000)] 5000 0 100).map
              (fun r => r.2.1) = some dists
          ∧ dists.Perm (([(("a".toList : Str), (1000 : ℚ)), ("b".toList, 3000)] :
              List (Str × ℚ)).map (fun p => p.2 / 1000))
          ∧ dists.Chain' (· ≤ ·))) :=
  ⟨by decide, dist_fallback [("a".toList, 1000), ("b".toList, 3000)] 5000 0 100 (by decide)⟩

theorem make_rows_seq (trip : Str) (stops : List Str) (times dists : List ℚ) :
    (make_stop_time_rows trip stops times dists).map STRow.stop_sequence
      = List.range (make_stop_time_rows trip stops times dists).length := by
  unfold make_stop_time_rows
  rw [List.map_map, List.length_map]
  have hcomp : (STRow.stop_sequence ∘ fun e : ℕ × (Str × ℚ × ℚ) =>
      ({ trip_id := trip, stop_id := e.2.1, stop_sequence := e.1
         arrival_time := e.2.2.1, departure_time := e.2.2.1
         shape_dist_traveled := e.2.2.2 } : STRow)) = Prod.fst := rfl
  rw [hcomp, List.enum_map_fst, List.enum_length]

theorem make_rows_dist (trip : Str) (stops : List Str) (times dists : List ℚ)
    (h1 : stops.length = times.length) (h2 : times.length = dists.length) :
    (make_stop_time_rows trip stops times dists).map STRow.shape_dist_traveled = dists := by
  unfold make_stop_time_rows
  rw [List.map_map]
  have hcomp : (STRow.shape_dist_traveled ∘ fun e : ℕ × (Str × ℚ × ℚ) =>
      ({ trip_id := trip, stop_id := e.2.1, stop_sequence := e.1
         arrival_time := e.2.2.1, departure_time := e.2.2.1
         shape_dist_traveled := e.2.2.2 } : STRow))
      = ((Prod.snd ∘ Prod.snd) ∘ Prod.snd) := rfl
  rw [hcomp, ← List.map_map, List.enum_map_snd, ← List.map_map]
  rw [List.map_snd_zip stops (times.zip dists)
    (by rw [List.length_zip, h1, ← h2, min_self])]
  exact List.map_snd_zip times dists (le_of_eq h2.symm)

theorem make_rows_arrival (trip : Str) (stops : List Str) (times dists : List ℚ)
    (h1 : stops.length = times.length) (h2 : times.length = dists.length) :
    (make_stop_time_rows trip stops times dists).map STRow.arrival_time = times := by
  unfold make_stop_time_rows
  rw [List.map_map]
  have hcomp : (STRow.arrival_time ∘ fun e : ℕ × (Str × ℚ × ℚ) =>
      ({ trip_id := trip, stop_id := e.2.1, stop_sequence := e.1
         arrival_time := e.2.2.1, departure_time := e.2.2.1
         shape_dist_traveled := e.2.2.2 } : STRow))
      = ((Prod.fst ∘ Prod.snd) ∘ Prod.snd) := rfl
  rw [hcomp, ← List.map_map, List.enum_map_snd, ← List.map_map]
  rw [List.map_snd_zip stops (times.zip dists)
    (by rw [List.length_zip, h1, ← h2, min_self])]
  exact List.map_fst_zip times dists (le_of_eq h2)

theorem make_rows_departure (trip : Str) (stops : List Str) (times dists : List ℚ)
    (h1 : stops.length = times.length) (h2 : times.length = dists.length) :
    (make_stop_time_rows trip stops times dists).map STRow.departure_time = times := by
  have hfun : (make_stop_time_rows trip stops times dists).map STRow.departure_time
      = (make_stop_time_rows trip stops times dists).map STRow.arrival_time := by
    unfold make_stop_time_rows
    rw [List.map_map, List.map_map]
    rfl
  rw [hfun]
  exact make_rows_arrival trip stops times dists h1 h2

theorem trip_rows_synthetic_monotone (trip shape : Str) (lenM2 speed : ℚ) (freq : ℕ)
    (rows2 : List STRow) (hD2 : 0 ≤ lenM2) (hs : 0 < speed)
    (hres2 : trip_rows_synthetic trip shape lenM2 speed freq = some rows2) :
    rows2.map STRow.stop_sequence = List.range rows2.length
    ∧ (rows2.map STRow.shape_dist_traveled).Chain' (· ≤ ·)
    ∧ (rows2.map STRow.arrival_time).Chain' (· ≤ ·)
    ∧ (rows2.map STRow.departure_time).Chain' (· ≤ ·) := by
  have hlen : (0 : ℚ) ≤ lenM2 / 1000 := div_nonneg hD2 (by norm_num)
  have hdur : (0 : ℚ) ≤ ((pyInt (lenM2 / 1000 / speed * 3600)) : ℚ) := by
    have harg : (0 : ℚ) ≤ lenM2 / 1000 / speed * 3600 :=
      mul_nonneg (div_nonneg hlen (le_of_lt hs)) (by norm_num)
    rw [pyInt_eq_floor _ harg]
    exact_mod_cast Int.floor_nonneg.mpr harg
  unfold trip_rows_synthetic at hres2
  dsimp only at hres2
  split at hres2
  · simp only [Option.some.injEq] at hres2
    rw [← hres2]
    refine ⟨rfl, ?_, ?_, ?_⟩ <;> simp
  · split at hres2
    · split at hres2
      · simp only [Option.some.injEq] at hres2
        rw [← hres2]
        refine ⟨rfl, ?_, ?_, ?_⟩
        · simp only [List.map_cons, List.map_nil]
          exact List.chain'_pair.mpr hlen
        · simp only [List.map_cons, List.map_nil]
          apply List.chain'_pair.mpr
          linarith
        · simp only [List.map_cons, List.map_nil]
          apply List.chain'_pair.mpr
          linarith
      · exact Option.noConfusion hres2
    · exact Option.noConfusion hres2

/-- C4: within every trip's stop-time rows, `stop_sequence` counts
0, 1, 2, ... in row order, the shape distance traveled is non-decreasing
and the arrival/departure times are non-decreasing — in explicit-stop
mode (rows assembled from `compute_stops_dists_times`, for any measured
distances, with a well-formed trip: nonnegative shape length and start
time not after end time) and in synthetic-stop mode (nonnegative shape
length and positive speed). -/
theorem stop_time_monotone (trip shape : Str) (pairs : List (Str × ℚ))
    (lenM lenM2 speed t0 t1 : ℚ) (freq : ℕ)
    (stops : List Str) (dists times : List ℚ) (rows2 : List STRow)
    (hD : 0 ≤ lenM) (ht : t0 ≤ t1) (hD2 : 0 ≤ lenM2) (hs : 0 < speed)
    (hres : compute_stops_dists_times pairs lenM t0 t1 = some (stops, dists, times))
    (hres2 : trip_rows_synthetic trip shape lenM2 speed freq = some rows2) :
    ((make_stop_time_rows trip stops times dists).map STRow.stop_sequence
        = List.range (make_stop_time_rows trip stops times dists).length)
    ∧ (make_stop_time_rows trip stops times dists).map STRow.shape_dist_traveled = dists
    ∧ (make_stop_time_rows trip stops times dists).map STRow.arrival_time = times
    ∧ (make_stop_time_rows trip stops times dists).map STRow.departure_time = times
    ∧ dists.Chain' (· ≤ ·)
    ∧ times.Chain' (· ≤ ·)
    ∧ rows2.map STRow.stop_sequence = List.range rows2.length
    ∧ (rows2.map STRow.shape_dist_traveled).Chain' (· ≤ ·)
    ∧ (rows2.map STRow.arrival_time).Chain' (· ≤ ·)
    ∧ (rows2.map STRow.departure_time).Chain' (· ≤ ·) := by
  rcases compute_sdt_inv pairs lenM t0 t1 stops dists times hres with
    ⟨hstops, htimes, hlen, _hpairs, hcase⟩
  have hlenstops : stops.length = pairs.length := by
    rw [hstops, List.length_map, List.length_insertionSort, List.length_map]
  have h2 : times.length = dists.length := by
    rw [htimes, List.length_map]
  have h1 : stops.length = times.length := by
    rw [hlenstops, h2, hlen]
  have hdp : dists.Pairwise (· ≤ ·) := by
    rcases hcase with ⟨hd, _⟩ | ⟨hd, hp2, _⟩
    · rw [hd]
      exact pairwise_fst_of_sorted _ (List.sorted_insertionSort pairLe _)
    · rw [hd, List.pairwise_map]
      have hdelta : 0 ≤ lenM / 1000 / ((pairs.length : ℚ) - 1) := by
        apply div_nonneg (div_nonneg hD (by norm_num))
        have hc : (2 : ℚ) ≤ (pairs.length : ℚ) := by exact_mod_cast hp2
        linarith
      refine (List.pairwise_lt_range pairs.length).imp ?_
      intro a b hab
      exact mul_le_mul_of_nonneg_right (by exact_mod_cast le_of_lt hab) hdelta
  have htp : times.Pairwise (· ≤ ·) := by
    rw [htimes, List.pairwise_map]
    refine hdp.imp ?_
    intro a b hab
    exact np_interp_mono _ _ t0 t1 _ _ ht hab
  rcases trip_rows_synthetic_monotone trip shape lenM2 speed freq rows2 hD2 hs hres2 with
    ⟨hseq2, hdist2, harr2, hdep2⟩
  exact ⟨make_rows_seq trip stops times dists,
    make_rows_dist trip stops times dists h1 h2,
    make_rows_arrival trip stops times dists h1 h2,
    make_rows_departure trip stops times dists h1 h2,
    hdp.chain', htp.chain', hseq2, hdist2, harr2, hdep2⟩

/-- Witness for C4 at concrete inputs: two measured stops on a 5 km shape
with a trip from 0 to 100 seconds, and the synthetic trip `wTripId` on a
2 km shape at 10 km/h, frequency 4. -/
theorem stop_time_monotone_witness :
    (0 : ℚ) ≤ 5000 ∧ (0 : ℚ) ≤ 100 ∧ (0 : ℚ) ≤ 2000 ∧ (0 : ℚ) < 10
    ∧ compute_stops_dists_times [("b".toList, 3000), ("a".toList, 1000)] 5000 0 100
        = some (["a".toList, "b".toList], [1, 3], [0, 100])
    ∧ (((make_stop_time_rows wTripId ["a".toList, "b".toList] [0, 100] [1, 3]).map
          STRow.stop_sequence
        = List.range (make_stop_time_rows wTripId ["a".toList, "b".toList]
            [0, 100] [1, 3]).length)
      ∧ (make_stop_time_rows wTripId ["a".toList, "b".toList] [0, 100] [1, 3]).map
          STRow.shape_dist_traveled = [1, 3]
      ∧ (make_stop_time_rows wTripId ["a".toList, "b".toList] [0, 100] [1, 3]).map
          STRow.arrival_time = [0, 100]
      ∧ (make_stop_time_rows wTripId ["a".toList, "b".toList] [0, 100] [1, 3]).map
          STRow.departure_time = [0, 100]
      ∧ ([1, 3] : List ℚ).Chain' (· ≤ ·)
      ∧ ([0, 100] : List ℚ).Chain' (· ≤ ·)
      ∧ (Option.getD (trip_rows_synthetic wTripId wShapeId 2000 10 4) []).map
          STRow.stop_sequence
        = List.range (Option.getD (trip_rows_synthetic wTripId wShapeId 2000 10 4) []).length
      ∧ ((Option.getD (trip_rows_synthetic wTripId wShapeId 2000 10 4) []).map
          STRow.shape_dist_traveled).Chain' (· ≤ ·)
      ∧ ((Option.getD (trip_rows_synthetic wTripId wShapeId 2000 10 4) []).map
          STRow.arrival_time).Chain' (· ≤ ·)
      ∧ ((Option.getD (trip_rows_synthetic wTripId wShapeId 2000 10 4) []).map
          STRow.departure_time).Chain' (· ≤ ·)) :=
  ⟨by decide, by decide, by decide, by decide, by decide,
   stop_time_monotone wTripId wShapeId [("b".toList, 3000), ("a".toList, 1000)]
     5000 2000 10 0 100 4 ["a".toList, "b".toList] [1, 3] [0, 100]
     (Option.getD (trip_rows_synthetic wTripId wShapeId 2000 10 4) [])
     (by decide) (by decide) (by decide) (by decide) (by decide) (by decide)⟩

end MakeGtfs
